import Mathlib

/-!
Shallow embedding of the privacy-policy discovery crawler from
`backend/src/services/gemini-analyzer.ts` (the enhanced `PolicyScraper`
class), together with theorems settling the specification claims about it.

Network I/O (axios), HTML/XML querying (cheerio) and the platform regex
engine are external collaborators of the subsystem; they are modelled as an
explicit environment record (`Env`) of oracle functions, while every piece
of logic belonging to the repository itself (route lists, keyword filters,
loop structure, early exits, error mapping) is transcribed from the source.
-/

namespace KavachPolicyScraper

/-! ## JS string primitives used by the source

These mirror the JavaScript string methods the scraper calls.  They are
implemented over `List Char` so that every closed instance evaluates by
kernel reduction. -/

/-- Substring test on character lists: `pat` occurs inside `l`. -/
def listInfix (pat : List Char) : List Char → Bool
  | [] => pat.isEmpty
  | c :: t => pat.isPrefixOf (c :: t) || listInfix pat t

/-- Model of JavaScript `String.prototype.includes`. -/
def strContains (s pat : String) : Bool :=
  listInfix pat.toList s.toList

/-- Model of JavaScript `String.prototype.toLowerCase` (ASCII letters). -/
def toLowerJs (s : String) : String :=
  String.mk (s.toList.map Char.toLower)

/-- Model of JavaScript `String.prototype.trim`. -/
def trimJs (s : String) : String :=
  String.mk (((s.toList.dropWhile Char.isWhitespace).reverse.dropWhile
    Char.isWhitespace).reverse)

/-- Model of JavaScript `String.prototype.startsWith`. -/
def startsWithJs (s pre : String) : Bool :=
  pre.toList.isPrefixOf s.toList

/-- Drop the first `n` characters of a string. -/
def strDropChars (s : String) (n : Nat) : String :=
  String.mk (s.toList.drop n)

/-- Split a character list on a separator character. -/
def splitOnCharAux (sep : Char) : List Char → List Char → List (List Char)
  | [], acc => [acc.reverse]
  | c :: t, acc =>
    if c = sep then acc.reverse :: splitOnCharAux sep t []
    else splitOnCharAux sep t (c :: acc)

/-- Model of JavaScript `String.prototype.split` with a one-character
separator. -/
def splitChar (s : String) (sep : Char) : List String :=
  (splitOnCharAux sep s.toList []).map String.mk

/-- Model of JavaScript `String.prototype.replace(/\s+/g, r)`: every run
of whitespace becomes the single character `r`. -/
def replaceWsWith (r : Char) (s : String) : String :=
  String.mk ((s.toList.foldl
    (fun (st : List Char × Bool) c =>
      if c.isWhitespace then
        if st.2 then st else (r :: st.1, true)
      else (c :: st.1, false))
    ([], false)).1.reverse)

/-! ## Model of the WHATWG URL constructor

The source calls `new URL(href)` / `new URL(href, base)` from the platform.
The model below covers the http(s) URLs the scraper works with: an absolute
URL splits into scheme, host and path; resolution against a base replaces
or joins the path.  Canonicalisations the real constructor performs beyond
this (percent-encoding, dot-segment removal, host lowercasing, non-http
schemes) are not modelled; no claim below depends on them. -/

structure JsUrlRec where
  scheme : String
  host : String
  path : String
  deriving DecidableEq, Repr

/-- Parse an absolute http(s) URL, `none` meaning `new URL` would throw. -/
def parseAbsUrl (s : String) : Option JsUrlRec :=
  let core : Option (String × String) :=
    if startsWithJs s "https://" then some ("https", strDropChars s 8)
    else if startsWithJs s "http://" then some ("http", strDropChars s 7)
    else none
  match core with
  | none => none
  | some (scheme, rest) =>
    let host := String.mk (rest.toList.takeWhile
      (fun c => c ≠ '/' && c ≠ '?' && c ≠ '#'))
    if host = "" then none
    else
      let tail := strDropChars rest host.length
      let path := if startsWithJs tail "/" then tail else "/" ++ tail
      some { scheme := scheme, host := host, path := path }

def urlToString (u : JsUrlRec) : String :=
  u.scheme ++ "://" ++ u.host ++ u.path

/-- The `pathname` component (path without query or fragment). -/
def pathnameOf (u : JsUrlRec) : String :=
  String.mk (u.path.toList.takeWhile (fun c => c ≠ '?' && c ≠ '#'))

/-- Characters of the base path up to and including the last `/`. -/
def upToLastSlash (l : List Char) : List Char :=
  ((l.reverse).dropWhile (fun c => c ≠ '/')).reverse

/-- Model of `new URL(href, base).toString()`; `none` models a throw. -/
def jsUrl (href base : String) : Option String :=
  match parseAbsUrl href with
  | some u => some (urlToString u)
  | none =>
    match parseAbsUrl base with
    | none => none
    | some b =>
      if startsWithJs href "//" then
        (parseAbsUrl (b.scheme ++ ":" ++ href)).map urlToString
      else if startsWithJs href "/" then
        some (urlToString { b with path := href })
      else if href = "" then
        some (urlToString b)
      else
        some (urlToString
          { b with path := String.mk (upToLastSlash b.path.toList) ++ href })

/-! ## Data model (`CrawlResult`, `ScrapedContent`) -/

inductive Method where
  | direct | sitemap | crawl | robots | fallback
  deriving DecidableEq, Repr

structure CrawlResult where
  privacyPolicyUrl : Option String
  foundUrls : List String
  crawledPages : Nat
  method : Method
  deriving DecidableEq, Repr

structure ScrapedContent where
  text : String
  url : String
  title : String
  lastModified : Option String
  deriving DecidableEq, Repr

/-- An anchor element as cheerio exposes it: the `href`, `title` and
`aria-label` attributes may be absent (`attr` returns `undefined`). -/
instance {ε α : Type} [DecidableEq ε] [DecidableEq α] :
    DecidableEq (Except ε α) := fun a b =>
  match a, b with
  | .ok x, .ok y =>
    if h : x = y then .isTrue (by rw [h]) else .isFalse (by simp [h])
  | .error x, .error y =>
    if h : x = y then .isTrue (by rw [h]) else .isFalse (by simp [h])
  | .ok _, .error _ => .isFalse (by simp)
  | .error _, .ok _ => .isFalse (by simp)

structure Anchor where
  href : Option String
  text : String
  title : Option String
  ariaLabel : Option String
  deriving DecidableEq, Repr

/-- Outcome of one `axios.get` performed by `attemptScrape`:
a response the configured `validateStatus` accepted, an axios throw that
carries a response status, or a network-level failure with an error code. -/
inductive FetchOutcome where
  | ok (status : Nat) (body : String) (lastModified : Option String)
  | httpErr (status : Nat)
  | netErr (code : String)
  deriving DecidableEq, Repr

/-- The external collaborators of the scraper, as a record of deterministic
oracles: `get`/`head` model axios requests (`none` = network failure or a
status the configured `validateStatus` rejects), `bodyText` models cheerio's
whole-body text extraction, `selectAnchors`/`allAnchors`/`sitemapLocs`
model cheerio selector queries on a fetched document, `fetchProfile` models
the `axios.get` issued by `attemptScrape` with the profile of the given
attempt number, `extractContent` stands for `extractContentComprehensive`
(whose selector-level internals are cheerio-bound and outside the claims
settled here), and `statusText` supplies the HTTP reason phrase. -/
structure Env where
  get : String → Option String
  head : String → Option Nat
  bodyText : String → String
  selectAnchors : String → String → List Anchor
  allAnchors : String → List Anchor
  sitemapLocs : String → List String
  fetchProfile : String → Nat → FetchOutcome
  extractContent : String → String → String × String
  statusText : Nat → String

/-! ## Class constants, transcribed from the source -/

def PRIVACY_KEYWORDS : List String :=
  ["privacy policy", "privacy notice", "data policy", "cookie policy",
   "privacy statement", "data protection", "privacy practices",
   "terms of service", "user agreement", "data usage", "information collection",
   "gdpr", "ccpa", "data rights", "personal information", "cookies",
   "tracking", "analytics", "third party", "data sharing", "personal data",
   "data controller", "data processor", "opt-out", "consent", "transparency",
   "data retention", "security policy", "privacy rights", "user privacy",
   "data collection policy", "information policy", "user data", "privacy settings"]

def PRIVACY_SELECTORS : List String :=
  ["a[href*=\"privacy\"]", "a[href*=\"cookie\"]", "a[href*=\"data-policy\"]",
   "a[href*=\"data-protection\"]", "a[href*=\"terms\"]", "a[href*=\"legal\"]",
   ".privacy-policy", ".privacy-link", ".privacy", ".cookie-policy",
   "#privacy-policy", "#privacy", "#cookies", "#data-protection",
   "[data-testid*=\"privacy\"]", "[data-cy*=\"privacy\"]", "[data-qa*=\"privacy\"]",
   "[aria-label*=\"privacy\"]", "[title*=\"privacy\"]",
   "footer a", ".footer a", ".footer-links a", ".legal-links a",
   ".site-footer a", ".page-footer a", ".bottom-links a",
   ".nav-legal a", ".legal-nav a", ".secondary-nav a",
   ".utility-nav a", ".footer-nav a", ".legal a",
   "a:contains(\"Privacy\")", "a:contains(\"Cookie\")", "a:contains(\"Data\")",
   "a:contains(\"Terms\")", "a:contains(\"Legal\")", "a:contains(\"GDPR\")",
   "a:contains(\"CCPA\")", "a:contains(\"Policy\")"]

def CRAWL_ROUTES : List String :=
  ["/", "/home", "/index.html", "/index.php",
   "/about", "/about-us", "/company", "/who-we-are", "/our-company",
   "/about/privacy", "/about/legal", "/about/policies",
   "/legal", "/policies", "/terms", "/compliance", "/governance",
   "/legal/privacy", "/legal/terms", "/legal/cookies", "/legal/data-protection",
   "/policies/privacy", "/policies/data", "/policies/cookies",
   "/privacy", "/privacy-policy", "/privacy-notice", "/privacy-statement",
   "/data-policy", "/data-protection", "/cookie-policy", "/cookies",
   "/privacy.html", "/privacy.php", "/privacy.aspx", "/privacy/",
   "/privacy-policy.html", "/privacy-policy.php", "/privacy-policy/",
   "/help", "/support", "/faq", "/contact", "/customer-service",
   "/help/privacy", "/support/privacy", "/help/legal",
   "/account", "/profile", "/settings", "/preferences", "/dashboard",
   "/account/privacy", "/settings/privacy", "/user/privacy",
   "/en/privacy", "/us/privacy", "/privacy/en", "/en/privacy-policy",
   "/en-us/privacy", "/english/privacy",
   "/page/privacy", "/pages/privacy", "/static/privacy", "/docs/privacy",
   "/document/privacy", "/info/privacy", "/information/privacy",
   "/wp-content/themes/*/privacy", "/sites/default/files/privacy",
   "/m/privacy", "/mobile/privacy", "/app/privacy"]

def MAX_CRAWL_DEPTH : Nat := 3
def MAX_PAGES_TO_CRAWL : Nat := 50

/-! ## URL heuristics -/

/-- Transcribes `isLikelyPrivacyUrl`. -/
def isLikelyPrivacyUrl (url : String) : Bool :=
  let urlLower := toLowerJs url
  ["privacy", "policy", "legal", "terms", "cookie", "data-protection",
   "gdpr", "ccpa", "compliance"].any (fun indicator => strContains urlLower indicator)

/-- Transcribes `isPrivacyRelated`.  The source builds
`` `${text} ${href.toLowerCase()} ${title} ${ariaLabel}`.toLowerCase() ``
and also matches hyphen/underscore-normalised keywords inside the href. -/
def isPrivacyRelated (text href title ariaLabel : String) : Bool :=
  let searchText :=
    toLowerJs (text ++ " " ++ toLowerJs href ++ " " ++ title ++ " " ++ ariaLabel)
  PRIVACY_KEYWORDS.any fun keyword =>
    strContains searchText keyword ||
    strContains (toLowerJs href) (replaceWsWith '-' keyword) ||
    strContains (toLowerJs href) (replaceWsWith '_' keyword)

/-- Transcribes `isValidPrivacyUrl`: `new URL(url)` throwing yields `false`,
otherwise the path must avoid the exclusion patterns. -/
def isValidPrivacyUrl (url : String) : Bool :=
  match parseAbsUrl url with
  | none => false
  | some u =>
    let path := toLowerJs (pathnameOf u)
    !(["/register", "/contact",
       "/careers", "/jobs", "/blog", "/news", "/press", "/investors"].any
        (fun pattern => strContains path pattern))

/-- Transcribes `isCrawlableRoute`. -/
def isCrawlableRoute (path : String) : Bool :=
  let importantRoutes :=
    ["about", "legal", "help", "support", "contact", "company",
     "terms", "privacy", "policy", "footer", "sitemap"]
  let skipRoutes :=
    ["login", "register", "cart", "checkout", "search", "api",
     "admin", "wp-admin", "images", "css", "js", "assets"]
  let pathLower := toLowerJs path
  if skipRoutes.any (fun skip => strContains pathLower skip) then false
  else if importantRoutes.any (fun route => strContains pathLower route) then true
  else
    let segments := (splitChar path '/').filter (fun s => 0 < s.length)
    decide (segments.length ≤ 4) && !(strContains path "?") && !(strContains path "#")

/-- Transcribes `normalizeUrl`.  The TS parameter has type `string`, but the
spec also asks about a `null` argument, so the JS runtime behaviour is
modelled with an `Option`: on `null`, `href.startsWith` throws and the
`catch` returns the `null` href itself.  For a string href the function
never returns null: the `catch` returns `href` unchanged. -/
def normalizeUrl (href : Option String) (baseUrl : String) : Option String :=
  match href with
  | none => none
  | some h =>
    if startsWithJs h "http" then some h
    else
      match jsUrl h baseUrl with
      | some u => some u
      | none => some h

/-! ## Content validators -/

/-- Transcribes `validatePrivacyContent`, the validator every discovery
strategy uses: fetch the candidate URL, lowercase the cheerio body text, and
require at least 3 of 9 indicator phrases plus more than 1000 characters. -/
def validatePrivacyContent (env : Env) (url : String) : Bool :=
  match env.get url with
  | none => false
  | some body =>
    let text := toLowerJs (env.bodyText body)
    let privacyIndicators :=
      ["personal information", "data collection", "privacy policy",
       "we collect", "your information", "data processing",
       "cookies", "third parties", "data sharing"]
    let indicatorCount :=
      (privacyIndicators.filter (fun indicator => strContains text indicator)).length
    decide (3 ≤ indicatorCount) && decide (1000 < text.length)

/-- Transcribes `validatePrivacyPolicyContent`, the documented Content
Validator used by the `scrape` entry point. -/
def validatePrivacyPolicyContent (text : String) : Bool :=
  let lowerText := toLowerJs text
  let requiredIndicators :=
    ["personal information", "data collection", "privacy"]
  let optionalIndicators :=
    ["cookie", "third party", "data sharing", "we collect", "your information",
     "data processing", "personal data", "information we collect", "how we use",
     "data protection", "privacy policy", "gdpr", "ccpa", "consent"]
  let hasRequired :=
    requiredIndicators.any (fun indicator => strContains lowerText indicator)
  let optionalCount :=
    (optionalIndicators.filter (fun indicator => strContains lowerText indicator)).length
  hasRequired && decide (2 ≤ optionalCount) && decide (500 < text.length)

/-! ## Link extraction -/

/-- Transcribes the per-anchor body of `extractPrivacyLinks`. -/
def privacyLinkStep (baseUrl : String) (acc : List String) (link : Anchor) :
    List String :=
  match link.href with
  | none => acc
  | some href =>
    if href ≠ "" &&
       isPrivacyRelated (trimJs (toLowerJs link.text)) href
         ((link.title.map toLowerJs).getD "") ((link.ariaLabel.map toLowerJs).getD "") then
      match normalizeUrl (some href) baseUrl with
      | none => acc
      | some normalizedUrl =>
        if normalizedUrl ≠ "" && isValidPrivacyUrl normalizedUrl then
          if acc.contains normalizedUrl then acc else acc ++ [normalizedUrl]
        else acc
    else acc

/-- Transcribes `extractPrivacyLinks`: every privacy selector is queried and
each matched anchor is filtered; the `Set` accumulator keeps insertion
order and deduplicates. -/
def extractPrivacyLinks (env : Env) (doc : String) (baseUrl : String) :
    List String :=
  PRIVACY_SELECTORS.foldl
    (fun acc selector => (env.selectAnchors doc selector).foldl (privacyLinkStep baseUrl) acc)
    []

/-- Transcribes the per-anchor body of `extractCrawlableLinks`. -/
def crawlableLinkStep (baseHost currentUrl : String) (links : List String)
    (a : Anchor) : List String :=
  match a.href with
  | none => links
  | some href =>
    if href = "" then links
    else
      match normalizeUrl (some href) currentUrl with
      | none => links
      | some fullUrl =>
        match parseAbsUrl fullUrl with
        | none => links
        | some urlObj =>
          if urlObj.host = baseHost then
            let path := toLowerJs (pathnameOf urlObj)
            if isCrawlableRoute path then
              if links.contains fullUrl then links else links ++ [fullUrl]
            else links
          else links

/-- Transcribes `extractCrawlableLinks`.  When `new URL(baseUrl)` throws the
exception is caught by `comprehensiveCrawl`'s per-page handler, which skips
straight to the next iteration; since nothing observable follows the
enqueue step, that is modelled by returning no links. -/
def extractCrawlableLinks (env : Env) (doc : String) (baseUrl currentUrl : String) :
    List String :=
  match parseAbsUrl baseUrl with
  | none => []
  | some b =>
    (env.allAnchors doc).foldl (crawlableLinkStep b.host currentUrl) []

/-! ## Strategy 1: direct route testing -/

/-- Loop body of `testDirectRoutes` over the remaining routes.  A HEAD
response with status ≥ 400 makes axios throw (the call passes
`validateStatus: status < 400`), which the `catch` turns into a skip, as
does a network failure or an unresolvable URL. -/
def testDirectRoutesGo (env : Env) (baseUrl : String) :
    List String → List String → Nat → CrawlResult
  | [], foundUrls, crawledPages =>
    { privacyPolicyUrl := none, foundUrls := foundUrls,
      crawledPages := crawledPages, method := .direct }
  | route :: routes, foundUrls, crawledPages =>
    match jsUrl route baseUrl with
    | none => testDirectRoutesGo env baseUrl routes foundUrls crawledPages
    | some testUrl =>
      match env.head testUrl with
      | none => testDirectRoutesGo env baseUrl routes foundUrls crawledPages
      | some status =>
        if 400 ≤ status then
          testDirectRoutesGo env baseUrl routes foundUrls crawledPages
        else if status == 200 then
          let foundUrls' := foundUrls ++ [testUrl]
          let crawledPages' := crawledPages + 1
          if isLikelyPrivacyUrl testUrl && validatePrivacyContent env testUrl then
            { privacyPolicyUrl := some testUrl, foundUrls := foundUrls',
              crawledPages := crawledPages', method := .direct }
          else testDirectRoutesGo env baseUrl routes foundUrls' crawledPages'
        else testDirectRoutesGo env baseUrl routes foundUrls crawledPages

/-- Transcribes `testDirectRoutes`. -/
def testDirectRoutes (env : Env) (baseUrl : String) : CrawlResult :=
  testDirectRoutesGo env baseUrl CRAWL_ROUTES [] 0

/-! ## Strategy 2: robots.txt -/

/-- First match of the JS regex `/https?:\/\/[^\s]+/` on a character list:
the match starts at the first position where `http://` or `https://`
begins (its first character `h` is not whitespace, so the `[^\s]+` match
is that character followed by the longest non-whitespace run). -/
def firstHttpUrlMatchAux : List Char → Option (List Char)
  | [] => none
  | c :: rest =>
    if "http://".toList.isPrefixOf (c :: rest) ||
       "https://".toList.isPrefixOf (c :: rest) then
      some (c :: rest.takeWhile (fun ch => !ch.isWhitespace))
    else firstHttpUrlMatchAux rest

def firstHttpUrlMatch (line : String) : Option String :=
  (firstHttpUrlMatchAux line.toList).map String.mk

/-- First match of the JS regex `/\/[^\s]+/` on a character list. -/
def firstPathMatchAux : List Char → Option (List Char)
  | [] => none
  | c :: rest =>
    if c = '/' && (match rest with
                   | [] => false
                   | r :: _ => !r.isWhitespace) then
      some (c :: rest.takeWhile (fun ch => !ch.isWhitespace))
    else firstPathMatchAux rest

def firstPathMatch (line : String) : Option String :=
  (firstPathMatchAux line.toList).map String.mk

/-- Append a matched URL to the accumulator when the match exists. -/
def pushOptUrl (acc : List String) (o : Option String) : List String :=
  match o with
  | some u => acc ++ [u]
  | none => acc

/-- The two pushes a keyword-matching robots.txt line performs: the first
absolute URL on the line, then the first path-like token resolved against
the base (a resolution throw skips the remainder of the line). -/
def robotsLinePush (baseUrl : String) (acc : List String) (line : String) :
    List String :=
  let acc1 := pushOptUrl acc (firstHttpUrlMatch line)
  match firstPathMatch line with
  | some p =>
    match jsUrl p baseUrl with
    | some fullUrl => acc1 ++ [fullUrl]
    | none => acc1
  | none => acc1

/-- The keyword test on a robots.txt line's `trimmedLine`, its trimmed and
lowercased text. -/
def robotsLineMatches (line : String) : Bool :=
  let trimmedLine := toLowerJs (trimJs line)
  strContains trimmedLine "privacy" || strContains trimmedLine "policy" ||
    strContains trimmedLine "legal" || strContains trimmedLine "terms"

/-- Per-line accumulation of `parseRobotsTxt`: only lines whose trimmed,
lowercased text mentions privacy/policy/legal/terms contribute. -/
def robotsLineStep (baseUrl : String) (acc : List String) (line : String) :
    List String :=
  if robotsLineMatches line then robotsLinePush baseUrl acc line
  else acc

/-- Transcribes `parseRobotsTxt`. -/
def parseRobotsTxt (env : Env) (baseUrl : String) : CrawlResult :=
  match jsUrl "/robots.txt" baseUrl with
  | none =>
    { privacyPolicyUrl := none, foundUrls := [], crawledPages := 0, method := .robots }
  | some robotsUrl =>
    match env.get robotsUrl with
    | none =>
      { privacyPolicyUrl := none, foundUrls := [], crawledPages := 0, method := .robots }
    | some robotsContent =>
      let foundUrls := (splitChar robotsContent '\n').foldl (robotsLineStep baseUrl) []
      match foundUrls.find? (fun testUrl => validatePrivacyContent env testUrl) with
      | some hit =>
        { privacyPolicyUrl := some hit, foundUrls := foundUrls,
          crawledPages := 1, method := .robots }
      | none =>
        { privacyPolicyUrl := none, foundUrls := foundUrls,
          crawledPages := 1, method := .robots }

/-! ## Strategy 3: sitemap -/

def sitemapPaths : List String :=
  ["/sitemap.xml", "/sitemap_index.xml", "/sitemaps.xml",
   "/sitemap/sitemap.xml", "/wp-sitemap.xml"]

/-- Loop body of `parseSitemap` over the remaining sitemap locations.  The
accumulated `foundUrls` persist across sitemap files, and after each parsed
file the whole accumulated list is re-tested for a validated hit, exactly
as in the source. -/
def parseSitemapGo (env : Env) (baseUrl : String) :
    List String → List String → Nat → CrawlResult
  | [], foundUrls, crawledPages =>
    { privacyPolicyUrl := none, foundUrls := foundUrls,
      crawledPages := crawledPages, method := .sitemap }
  | p :: rest, foundUrls, crawledPages =>
    match jsUrl p baseUrl with
    | none => parseSitemapGo env baseUrl rest foundUrls crawledPages
    | some sitemapUrl =>
      match env.get sitemapUrl with
      | none => parseSitemapGo env baseUrl rest foundUrls crawledPages
      | some doc =>
        let crawledPages' := crawledPages + 1
        let foundUrls' := foundUrls ++
          ((env.sitemapLocs doc).filterMap (fun locText =>
            let url := trimJs locText
            if url ≠ "" && isLikelyPrivacyUrl url then some url else none))
        match foundUrls'.find? (fun testUrl => validatePrivacyContent env testUrl) with
        | some hit =>
          { privacyPolicyUrl := some hit, foundUrls := foundUrls',
            crawledPages := crawledPages', method := .sitemap }
        | none => parseSitemapGo env baseUrl rest foundUrls' crawledPages'

/-- Transcribes `parseSitemap`. -/
def parseSitemap (env : Env) (baseUrl : String) : CrawlResult :=
  parseSitemapGo env baseUrl sitemapPaths [] 0

/-! ## Strategy 4: comprehensive crawl -/

/-- Transcribes the JS expression `foundUrls[0] || null` of the crawl's
terminal return: the first accumulated candidate, unless the list is empty
or its head is the (falsy) empty string. -/
def firstFoundOrNull : List String → Option String
  | [] => none
  | u :: _ => if u = "" then none else some u

/-- The crawl's terminal return (frontier exhausted or page budget hit). -/
def crawlTerminal (foundUrls : List String) (crawledPages : Nat) : CrawlResult :=
  { privacyPolicyUrl := firstFoundOrNull foundUrls, foundUrls := foundUrls,
    crawledPages := crawledPages, method := .crawl }

/-- The `while` loop of `comprehensiveCrawl`, indexed by structural fuel so
that closed runs evaluate by kernel reduction.  One iteration dequeues a
target; visited or too-deep targets are skipped; otherwise the URL is
marked visited, `crawledPages` is incremented (both happen before the
fetch, so a failed fetch still counts), the page's privacy links are
appended to `foundUrls` and validated in order with an early exit on the
first validated hit, and same-domain crawlable links (capped at 10, not
yet visited) are enqueued at depth + 1 while `depth < maxDepth`.  The
out-of-fuel branch is dead for adequate fuel: `crawlLoopF_congr` below
proves the result does not depend on the fuel once it exceeds
`queue.length + 10 * (maxPages - crawledPages)`, which is the termination
argument of the JS loop. -/
def crawlLoopF (env : Env) (baseUrl : String) (maxPages maxDepth : Nat) :
    Nat → List (String × Nat) → List String → List String → Nat → CrawlResult
  | 0, _, _, foundUrls, crawledPages => crawlTerminal foundUrls crawledPages
  | _, [], _, foundUrls, crawledPages => crawlTerminal foundUrls crawledPages
  | fuel + 1, (currentUrl, depth) :: rest, visited, foundUrls, crawledPages =>
    if crawledPages < maxPages then
      if visited.contains currentUrl || decide (maxDepth < depth) then
        crawlLoopF env baseUrl maxPages maxDepth fuel rest visited foundUrls crawledPages
      else
        let visited' := currentUrl :: visited
        let crawledPages' := crawledPages + 1
        match env.get currentUrl with
        | none =>
          crawlLoopF env baseUrl maxPages maxDepth fuel rest visited' foundUrls crawledPages'
        | some doc =>
          let pagePrivacyUrls := extractPrivacyLinks env doc currentUrl
          let foundUrls' := foundUrls ++ pagePrivacyUrls
          match pagePrivacyUrls.find? (fun u => validatePrivacyContent env u) with
          | some hit =>
            { privacyPolicyUrl := some hit, foundUrls := foundUrls',
              crawledPages := crawledPages', method := .crawl }
          | none =>
            let rest' :=
              if decide (depth < maxDepth) then
                rest ++ ((((extractCrawlableLinks env doc baseUrl currentUrl).take 10).filter
                  (fun nextUrl => !(visited'.contains nextUrl))).map
                    (fun nextUrl => (nextUrl, depth + 1)))
              else rest
            crawlLoopF env baseUrl maxPages maxDepth fuel rest' visited' foundUrls' crawledPages'
    else crawlTerminal foundUrls crawledPages

/-- Fuel that dominates the loop's iteration count: every iteration
consumes a queue entry, and each of the at most `maxPages - crawledPages`
remaining fetches enqueues at most 10 new entries. -/
def crawlFuel (maxPages crawledPages : Nat) (queue : List (String × Nat)) : Nat :=
  queue.length + 10 * (maxPages - crawledPages) + 1

/-- Transcribes the `while` loop of `comprehensiveCrawl` (see
`crawlLoopF`). -/
def crawlLoop (env : Env) (baseUrl : String) (maxPages maxDepth : Nat)
    (queue : List (String × Nat)) (visited : List String)
    (foundUrls : List String) (crawledPages : Nat) : CrawlResult :=
  crawlLoopF env baseUrl maxPages maxDepth (crawlFuel maxPages crawledPages queue)
    queue visited foundUrls crawledPages

/-- Transcribes `comprehensiveCrawl`: the loop seeded with the base URL at
depth 0 and the class page/depth budgets. -/
def comprehensiveCrawl (env : Env) (baseUrl : String) : CrawlResult :=
  crawlLoop env baseUrl MAX_PAGES_TO_CRAWL MAX_CRAWL_DEPTH [(baseUrl, 0)] [] [] 0

/-! ## Strategy 5: fallback probe -/

/-- Loop body of `tryFallbackPolicyDiscovery`: a bare `axios.head` (default
`validateStatus` accepts only 2xx; anything else throws and is skipped)
followed by an explicit `status === 200` test. -/
def tryFallbackGo (env : Env) (baseUrl : String) : List String → Option String
  | [] => none
  | p :: rest =>
    match jsUrl p baseUrl with
    | none => tryFallbackGo env baseUrl rest
    | some testUrl =>
      match env.head testUrl with
      | none => tryFallbackGo env baseUrl rest
      | some status =>
        if 200 ≤ status && status < 300 then
          if status == 200 then some testUrl else tryFallbackGo env baseUrl rest
        else tryFallbackGo env baseUrl rest

/-- Transcribes `tryFallbackPolicyDiscovery`. -/
def tryFallbackPolicyDiscovery (env : Env) (baseUrl : String) : Option String :=
  tryFallbackGo env baseUrl
    ["/privacy-policy", "/privacy", "/legal/privacy", "/privacy.html"]

/-! ## The discovery pipeline -/

/-- JS truthiness of a `string | null` value: `null` and `""` are falsy. -/
def isTruthyStr : Option String → Bool
  | none => false
  | some s => s ≠ ""

/-- Transcribes `findPrivacyPolicyUrl`: the five strategies in source
order, each guarded by the truthiness of the previous results'
`privacyPolicyUrl`; the final return wraps the fallback probe's URL.  The
surrounding `try`/`catch` never fires in this total model. -/
def findPrivacyPolicyUrl (env : Env) (baseUrl : String) : CrawlResult :=
  let directResult := testDirectRoutes env baseUrl
  if isTruthyStr directResult.privacyPolicyUrl then
    { directResult with method := .direct }
  else
    let robotsResult := parseRobotsTxt env baseUrl
    if isTruthyStr robotsResult.privacyPolicyUrl then
      { robotsResult with method := .robots }
    else
      let sitemapResult := parseSitemap env baseUrl
      if isTruthyStr sitemapResult.privacyPolicyUrl then
        { sitemapResult with method := .sitemap }
      else
        let crawlResult := comprehensiveCrawl env baseUrl
        if isTruthyStr crawlResult.privacyPolicyUrl then
          { crawlResult with method := .crawl }
        else
          match tryFallbackPolicyDiscovery env baseUrl with
          | some fallbackResult =>
            { privacyPolicyUrl := some fallbackResult,
              foundUrls := if fallbackResult = "" then [] else [fallbackResult],
              crawledPages := 0, method := .fallback }
          | none =>
            { privacyPolicyUrl := none, foundUrls := [],
              crawledPages := 0, method := .fallback }

/-! ## Content scraping (`scrapePrivacyPolicy`) -/

/-- Transcribes `cleanText`: collapse whitespace runs to single spaces
(after which the second `replace`, collapsing blank lines, is the
identity, no newline surviving), strip non-ASCII characters, trim. -/
def cleanText (text : String) : String :=
  trimJs (String.mk ((replaceWsWith ' ' text).toList.filter (fun c => c.toNat ≤ 0x7F)))

/-- Transcribes `attemptScrape` for one attempt number: the request profile
is chosen by the attempt, statuses below 500 are accepted by
`validateStatus` and re-checked (`status >= 400` throws an `HTTP <status>`
error), axios throws carrying a response status or a network error code are
mapped to the source's descriptive messages. -/
def attemptScrape (env : Env) (url : String) (attempt : Nat) :
    Except String ScrapedContent :=
  match env.fetchProfile url attempt with
  | .ok status body lastModified =>
    if 400 ≤ status then
      .error ("HTTP " ++ toString status ++ ": " ++ env.statusText status)
    else
      let extracted := env.extractContent body url
      .ok { text := cleanText extracted.1, url := url, title := extracted.2,
            lastModified := lastModified }
  | .httpErr status =>
    if status == 403 then
      .error ("Access denied (403) - Website blocks automated requests. Try manual review of privacy policy at: " ++ url)
    else if status == 404 then
      .error ("Privacy policy not found (404) at: " ++ url)
    else if status == 429 then
      .error ("Rate limited (429) - Too many requests to: " ++ url)
    else if status == 503 then
      .error ("Service unavailable (503) - Server temporarily unavailable: " ++ url)
    else
      .error ("Request failed with status code " ++ toString status)
  | .netErr code =>
    if code == "ENOTFOUND" then .error ("Domain not found: " ++ url)
    else if code == "ECONNREFUSED" then .error ("Connection refused: " ++ url)
    else if code == "ETIMEDOUT" then .error ("Request timeout: " ++ url)
    else .error code

/-- The retry loop of `scrapePrivacyPolicy` from a given attempt number
with the given number of loop iterations remaining.  Mirrors the source
control flow: long validated content returns; long unvalidated content
retries unless this is attempt 4, which returns it as partial content
(> 100 chars); an error whose message mentions 404 or 403 is re-thrown at
once, aborting the remaining attempts; other errors retry until attempt 4;
falling off the loop throws the final message. -/
def scrapeGo (env : Env) (url : String) : Nat → Nat → Except String ScrapedContent
  | _, 0 => .error "All scraping attempts failed - no valid content found"
  | attempt, remaining + 1 =>
    match attemptScrape env url attempt with
    | .ok result =>
      if decide (200 < result.text.length) then
        if validatePrivacyPolicyContent result.text then .ok result
        else if decide (attempt < 4) then scrapeGo env url (attempt + 1) remaining
        else if attempt == 4 && decide (100 < result.text.length) then .ok result
        else scrapeGo env url (attempt + 1) remaining
      else if attempt == 4 && decide (100 < result.text.length) then .ok result
      else scrapeGo env url (attempt + 1) remaining
    | .error e =>
      if strContains e "404" || strContains e "403" then .error e
      else if attempt == 4 then .error e
      else scrapeGo env url (attempt + 1) remaining

/-- Transcribes `scrapePrivacyPolicy`: four attempts, and the outer `catch`
re-wraps whatever escaped the loop into the final thrown message. -/
def scrapePrivacyPolicy (env : Env) (url : String) : Except String ScrapedContent :=
  match scrapeGo env url 1 4 with
  | .ok r => .ok r
  | .error e =>
    .error ("Failed to scrape privacy policy from " ++ url ++ ": " ++ e)

/-! ## Batch processing (`batchFindPrivacyPolicies`) -/

/-- The record a failed domain is mapped to by the batch `catch`. -/
def failedDomainRecord : CrawlResult :=
  { privacyPolicyUrl := none, foundUrls := [], crawledPages := 0,
    method := .fallback }

/-- JS `Map.set`: overwrite an existing key in place, else append. -/
def mapSet : List (String × CrawlResult) → String → CrawlResult →
    List (String × CrawlResult)
  | [], k, v => [(k, v)]
  | (k', v') :: rest, k, v =>
    if k' = k then (k, v) :: rest else (k', v') :: mapSet rest k v

/-- JS `Map.get`. -/
def mapGet : List (String × CrawlResult) → String → Option CrawlResult
  | [], _ => none
  | (k', v') :: rest, k => if k' = k then some v' else mapGet rest k

/-- One domain of a batch: the awaited `findPrivacyPolicyUrl` call either
delivers a result or throws, in which case the `catch` stores the fallback
record.  The pipeline is passed as a function so that a throwing
invocation can be modelled (the transcribed `findPrivacyPolicyUrl` itself
is total, its body being wrapped in `try`/`catch`; JS still permits
runtime faults, which is what the batch-level `catch` guards against). -/
def batchProcessOne (pipeline : String → Except Unit CrawlResult)
    (results : List (String × CrawlResult)) (baseUrl : String) :
    List (String × CrawlResult) :=
  match pipeline baseUrl with
  | .ok result => mapSet results baseUrl result
  | .error _ => mapSet results baseUrl failedDomainRecord

/-- Transcribes the chunked loop of `batchFindPrivacyPolicies`: groups of
`concurrent = 3` domains are dispatched and awaited together (the model
sequentialises the group; the assembled map does not depend on completion
order), with a delay between groups.  The three-way split spells out
`baseUrls.slice(i, i + 3)` structurally. -/
def batchGo (pipeline : String → Except Unit CrawlResult) :
    List String → List (String × CrawlResult) → List (String × CrawlResult)
  | [], results => results
  | [a], results => [a].foldl (batchProcessOne pipeline) results
  | [a, b], results => [a, b].foldl (batchProcessOne pipeline) results
  | a :: b :: c :: rest, results =>
    batchGo pipeline rest ([a, b, c].foldl (batchProcessOne pipeline) results)

/-- Transcribes `batchFindPrivacyPolicies`. -/
def batchFindPrivacyPolicies (pipeline : String → Except Unit CrawlResult)
    (baseUrls : List String) : List (String × CrawlResult) :=
  batchGo pipeline baseUrls []

/-! ## Spec-side pipeline description (for the refinement claim) -/

/-- The first strategy result with a non-null hit, its method overridden by
the strategy's tag; the default when none hits. -/
def firstHit : List (CrawlResult × Method) → CrawlResult → CrawlResult
  | [], dflt => dflt
  | (r, m) :: rest, dflt =>
    if r.privacyPolicyUrl.isSome then { r with method := m }
    else firstHit rest dflt

/-- The record the pipeline builds from the fallback probe's URL. -/
def specFallbackResult (env : Env) (baseUrl : String) : CrawlResult :=
  match tryFallbackPolicyDiscovery env baseUrl with
  | some u =>
    { privacyPolicyUrl := some u, foundUrls := [u], crawledPages := 0,
      method := .fallback }
  | none =>
    { privacyPolicyUrl := none, foundUrls := [], crawledPages := 0,
      method := .fallback }

/-- Modelled from the spec: the Discovery Pipeline "runs strategies
strictly in this order, returning immediately on the first non-null hit:
Route Prober (direct) → Robots Harvester (robots) → Sitemap Harvester
(sitemap) → Crawl Orchestrator (crawl) → last-resort fallback probe
(fallback)", the returned record carrying the hitting strategy's tag.
This is the description `findPrivacyPolicyUrl` is compared against. -/
def specPipeline (env : Env) (baseUrl : String) : CrawlResult :=
  firstHit
    [(testDirectRoutes env baseUrl, .direct),
     (parseRobotsTxt env baseUrl, .robots),
     (parseSitemap env baseUrl, .sitemap),
     (comprehensiveCrawl env baseUrl, .crawl),
     (specFallbackResult env baseUrl, .fallback)]
    { privacyPolicyUrl := none, foundUrls := [], crawledPages := 0,
      method := .fallback }

/-- What the batch stores for a domain: the pipeline's result, or the
fallback record when the invocation threw. -/
def batchExpected (pipeline : String → Except Unit CrawlResult)
    (baseUrl : String) : CrawlResult :=
  match pipeline baseUrl with
  | .ok r => r
  | .error _ => failedDomainRecord

/-! ## Concrete test environments used by witnesses and counterexamples -/

/-- A 599-character text that passes the documented Content Validator:
longer than 500 characters, containing the required indicator
`personal information` and the optional indicators `we collect` and
`cookie`. -/
def goodPolicyText : String :=
  "personal information we collect cookie " ++ String.mk (List.replicate 560 'a')

/-- A site whose only reachable server response is a 200 HEAD on
`/privacy-policy`; every GET fails, so nothing is ever content-validated,
yet the fallback probe reports that URL. -/
def envC1 : Env :=
  { get := fun _ => none
    head := fun u => if u = "http://s/privacy-policy" then some 200 else none
    bodyText := fun _ => ""
    selectAnchors := fun _ _ => []
    allAnchors := fun _ => []
    sitemapLocs := fun _ => []
    fetchProfile := fun _ _ => .netErr ""
    extractContent := fun _ _ => ("", "")
    statusText := fun _ => "" }

/-- A site whose homepage `D` carries one privacy-flagged anchor to
`/privacy`, whose GET fails, so the candidate never validates; the crawl
frontier then empties. -/
def envC2 : Env :=
  { get := fun u => if u = "http://s" then some "D" else none
    head := fun _ => none
    bodyText := fun _ => ""
    selectAnchors := fun doc sel =>
      if doc = "D" && sel = "a[href*=\"privacy\"]" then
        [{ href := some "/privacy", text := "Privacy Policy",
           title := none, ariaLabel := none }]
      else []
    allAnchors := fun _ => []
    sitemapLocs := fun _ => []
    fetchProfile := fun _ _ => .netErr ""
    extractContent := fun _ _ => ("", "")
    statusText := fun _ => "" }

/-- A site where only the HEAD probe of `/help` answers 200, a route that
is not privacy-named, so direct probing accumulates a candidate without a
hit; every other request fails. -/
def envC3 : Env :=
  { get := fun _ => none
    head := fun u => if u = "http://s/help" then some 200 else none
    bodyText := fun _ => ""
    selectAnchors := fun _ _ => []
    allAnchors := fun _ => []
    sitemapLocs := fun _ => []
    fetchProfile := fun _ _ => .netErr ""
    extractContent := fun _ _ => ("", "")
    statusText := fun _ => "" }

/-- A scrape target whose first request profile receives HTTP 404 while
the second profile would receive a valid privacy policy. -/
def envC4 : Env :=
  { get := fun _ => none
    head := fun _ => none
    bodyText := fun _ => ""
    selectAnchors := fun _ _ => []
    allAnchors := fun _ => []
    sitemapLocs := fun _ => []
    fetchProfile := fun _ attempt =>
      if attempt = 1 then .ok 404 "" none
      else .ok 200 "B" none
    extractContent := fun body _ => (if body = "B" then goodPolicyText else "", "T")
    statusText := fun status => if status = 404 then "Not Found" else "" }

/-- A synthetic site offering an unbounded supply of fresh same-domain
crawlable links: every page fetches (the document is its own URL) and
links to ten new paths below it. -/
def envInf : Env :=
  { get := fun u => some u
    head := fun _ => none
    bodyText := fun _ => ""
    selectAnchors := fun _ _ => []
    allAnchors := fun doc =>
      (List.range 10).map (fun i =>
        { href := some (doc ++ "/p" ++ toString i), text := "",
          title := none, ariaLabel := none })
    sitemapLocs := fun _ => []
    fetchProfile := fun _ _ => .netErr ""
    extractContent := fun _ _ => ("", "")
    statusText := fun _ => "" }

/-- A page of 599 characters (body text `goodPolicyText`) served at
`http://s/privacy`: the documented validator accepts the text, the
discovery validator rejects the page. -/
def envSep : Env :=
  { get := fun u => if u = "http://s/privacy" then some "B" else none
    head := fun _ => none
    bodyText := fun b => if b = "B" then goodPolicyText else ""
    selectAnchors := fun _ _ => []
    allAnchors := fun _ => []
    sitemapLocs := fun _ => []
    fetchProfile := fun _ _ => .netErr ""
    extractContent := fun _ _ => ("", "")
    statusText := fun _ => "" }

/-- A three-domain batch pipeline whose middle domain throws. -/
def batchDemoPipeline : String → Except Unit CrawlResult := fun baseUrl =>
  if baseUrl = "http://b" then .error ()
  else .ok { privacyPolicyUrl := some (baseUrl ++ "/privacy"),
             foundUrls := [baseUrl ++ "/privacy"], crawledPages := 1,
             method := .direct }

/-! ## Helper lemmas

Nonemptiness facts about the URLs the strategies produce.  They bridge the
JS truthiness tests (`null` and `""` falsy) with plain nullability: no
strategy ever produces the empty string as a candidate URL. -/

theorem urlToString_ne_empty (r : JsUrlRec) : urlToString r ≠ "" := by
  intro h
  have hlen := congrArg String.length h
  simp only [urlToString, String.length_append] at hlen
  have h3 : ("://" : String).length = 3 := rfl
  have h0 : ("" : String).length = 0 := rfl
  omega

theorem jsUrl_ne_empty {href base u : String} (h : jsUrl href base = some u) :
    u ≠ "" := by
  unfold jsUrl at h
  split at h
  · exact Option.some.inj h ▸ urlToString_ne_empty _
  · split at h
    · exact absurd h (by simp)
    · split at h
      · obtain ⟨r, -, hr⟩ := Option.map_eq_some'.mp h
        exact hr ▸ urlToString_ne_empty r
      · split at h
        · exact Option.some.inj h ▸ urlToString_ne_empty _
        · split at h
          · exact Option.some.inj h ▸ urlToString_ne_empty _
          · exact Option.some.inj h ▸ urlToString_ne_empty _

theorem normalizeUrl_ne_empty {h base u : String} (hne : h ≠ "")
    (heq : normalizeUrl (some h) base = some u) : u ≠ "" := by
  simp only [normalizeUrl] at heq
  split at heq
  · exact Option.some.inj heq ▸ hne
  · split at heq
    next v hv => exact Option.some.inj heq ▸ jsUrl_ne_empty hv
    next hv => exact Option.some.inj heq ▸ hne

theorem strMk_ne_empty {cs : List Char} (h : cs ≠ []) : String.mk cs ≠ "" :=
  fun he => h (congrArg String.data he)

theorem privacyLinkStep_ne {baseUrl : String} {acc : List String} {link : Anchor}
    (hacc : ∀ x ∈ acc, x ≠ "") : ∀ x ∈ privacyLinkStep baseUrl acc link, x ≠ "" := by
  intro x hx
  unfold privacyLinkStep at hx
  split at hx
  · exact hacc x hx
  · split at hx
    · split at hx
      · exact hacc x hx
      · split at hx
        next hcond =>
          split at hx
          · exact hacc x hx
          · rcases List.mem_append.mp hx with hmem | hmem
            · exact hacc x hmem
            · rw [List.mem_singleton] at hmem
              subst hmem
              simp only [Bool.and_eq_true, decide_eq_true_eq] at hcond
              exact hcond.1
        next => exact hacc x hx
    · exact hacc x hx

theorem foldl_all_ne {α : Type} (f : List String → α → List String)
    (hf : ∀ acc a, (∀ x ∈ acc, x ≠ "") → ∀ x ∈ f acc a, x ≠ "") :
    ∀ (l : List α) (acc : List String), (∀ x ∈ acc, x ≠ "") →
      ∀ x ∈ l.foldl f acc, x ≠ "" := by
  intro l
  induction l with
  | nil => intro acc hacc; simpa using hacc
  | cons a t ih =>
    intro acc hacc
    exact ih _ (hf acc a hacc)

theorem extractPrivacyLinks_ne (env : Env) (doc baseUrl : String) :
    ∀ x ∈ extractPrivacyLinks env doc baseUrl, x ≠ "" := by
  unfold extractPrivacyLinks
  refine foldl_all_ne _ ?_ _ _ (by simp)
  intro acc sel hacc
  exact foldl_all_ne _ (fun acc2 link hacc2 => privacyLinkStep_ne hacc2) _ _ hacc

theorem firstHttpUrlMatchAux_ne {l : List Char} {cs : List Char}
    (h : firstHttpUrlMatchAux l = some cs) : cs ≠ [] := by
  induction l with
  | nil => simp [firstHttpUrlMatchAux] at h
  | cons c rest ih =>
    unfold firstHttpUrlMatchAux at h
    split at h
    · cases h
      simp
    · exact ih h

theorem firstHttpUrlMatch_ne {line u : String}
    (h : firstHttpUrlMatch line = some u) : u ≠ "" := by
  unfold firstHttpUrlMatch at h
  obtain ⟨cs, hcs, hu⟩ := Option.map_eq_some'.mp h
  exact hu ▸ strMk_ne_empty (firstHttpUrlMatchAux_ne hcs)

theorem firstPathMatchAux_ne {l : List Char} {cs : List Char}
    (h : firstPathMatchAux l = some cs) : cs ≠ [] := by
  induction l with
  | nil => simp [firstPathMatchAux] at h
  | cons c rest ih =>
    unfold firstPathMatchAux at h
    split at h
    · cases h
      simp
    · exact ih h

theorem firstPathMatch_ne {line u : String}
    (h : firstPathMatch line = some u) : u ≠ "" := by
  unfold firstPathMatch at h
  obtain ⟨cs, hcs, hu⟩ := Option.map_eq_some'.mp h
  exact hu ▸ strMk_ne_empty (firstPathMatchAux_ne hcs)

theorem pushOptUrl_ne {acc : List String} {o : Option String}
    (hacc : ∀ x ∈ acc, x ≠ "") (ho : ∀ u, o = some u → u ≠ "") :
    ∀ x ∈ pushOptUrl acc o, x ≠ "" := by
  intro x hx
  match o with
  | none => exact hacc x hx
  | some u =>
    rcases List.mem_append.mp hx with hmem | hmem
    · exact hacc x hmem
    · rw [List.mem_singleton] at hmem
      exact hmem ▸ ho u rfl

theorem robotsLinePush_ne {baseUrl : String} {acc : List String} {line : String}
    (hacc : ∀ x ∈ acc, x ≠ "") : ∀ x ∈ robotsLinePush baseUrl acc line, x ≠ "" := by
  have hacc1 : ∀ x ∈ pushOptUrl acc (firstHttpUrlMatch line), x ≠ "" :=
    pushOptUrl_ne hacc (fun u hu => firstHttpUrlMatch_ne hu)
  intro x hx
  unfold robotsLinePush at hx
  split at hx
  next p hp =>
    split at hx
    next fullUrl hfull =>
      rcases List.mem_append.mp hx with hmem | hmem
      · exact hacc1 x hmem
      · rw [List.mem_singleton] at hmem
        exact hmem ▸ jsUrl_ne_empty hfull
    next => exact hacc1 x hx
  next => exact hacc1 x hx

theorem robotsLineStep_ne {baseUrl : String} {acc : List String} {line : String}
    (hacc : ∀ x ∈ acc, x ≠ "") : ∀ x ∈ robotsLineStep baseUrl acc line, x ≠ "" := by
  intro x hx
  unfold robotsLineStep at hx
  split at hx
  · exact robotsLinePush_ne hacc x hx
  · exact hacc x hx

/-- A discovery result whose hit, when present, is a nonempty string that
occurs among the result's own `foundUrls`. -/
def urlInFound (r : CrawlResult) : Prop :=
  ∀ u, r.privacyPolicyUrl = some u → u ≠ "" ∧ u ∈ r.foundUrls

theorem testDirectRoutesGo_spec (env : Env) (baseUrl : String) :
    ∀ (routes foundUrls : List String) (crawledPages : Nat),
      urlInFound (testDirectRoutesGo env baseUrl routes foundUrls crawledPages) := by
  intro routes
  induction routes with
  | nil =>
    intro f c u h
    simp [testDirectRoutesGo] at h
  | cons route rest ih =>
    intro f c
    simp only [testDirectRoutesGo]
    split
    next => exact ih f c
    next testUrl hj =>
      split
      next => exact ih f c
      next status hh =>
        split
        next => exact ih f c
        next =>
          split
          next =>
            split
            next =>
              intro u h
              cases h
              exact ⟨jsUrl_ne_empty hj, by simp⟩
            next => exact ih _ _
          next => exact ih f c

theorem parseRobotsTxt_spec (env : Env) (baseUrl : String) :
    urlInFound (parseRobotsTxt env baseUrl) := by
  unfold parseRobotsTxt
  split
  next => intro u h; simp at h
  next robotsUrl hr =>
    split
    next => intro u h; simp at h
    next robotsContent hc =>
      dsimp only
      split
      next hit hfind =>
        intro u h
        cases h
        refine ⟨?_, List.mem_of_find?_eq_some hfind⟩
        have hne := foldl_all_ne (robotsLineStep baseUrl)
          (fun acc a hacc => robotsLineStep_ne hacc)
          (splitChar robotsContent '\n') [] (by simp)
        exact hne _ (List.mem_of_find?_eq_some hfind)
      next => intro u h; simp at h

theorem sitemapLocsFiltered_ne (locs : List String) :
    ∀ x ∈ locs.filterMap (fun locText =>
      let url := trimJs locText
      if url ≠ "" && isLikelyPrivacyUrl url then some url else none), x ≠ "" := by
  intro x hx
  obtain ⟨a, -, ha⟩ := List.mem_filterMap.mp hx
  by_cases hcond : (decide (trimJs a ≠ "") && isLikelyPrivacyUrl (trimJs a)) = true
  · simp only [hcond, if_pos] at ha
    cases ha
    simp only [Bool.and_eq_true, decide_eq_true_eq] at hcond
    exact hcond.1
  · simp only [hcond] at ha
    simp at ha

theorem parseSitemapGo_spec (env : Env) (baseUrl : String) :
    ∀ (paths foundUrls : List String) (crawledPages : Nat),
      (∀ x ∈ foundUrls, x ≠ "") →
      urlInFound (parseSitemapGo env baseUrl paths foundUrls crawledPages) := by
  intro paths
  induction paths with
  | nil =>
    intro f c hf u h
    simp [parseSitemapGo] at h
  | cons p rest ih =>
    intro f c hf
    simp only [parseSitemapGo]
    split
    next => exact ih f c hf
    next sitemapUrl hs =>
      split
      next => exact ih f c hf
      next doc hd =>
        have hf' : ∀ x ∈ f ++ (env.sitemapLocs doc).filterMap (fun locText =>
            let url := trimJs locText
            if url ≠ "" && isLikelyPrivacyUrl url then some url else none), x ≠ "" := by
          intro x hx
          rcases List.mem_append.mp hx with hmem | hmem
          · exact hf x hmem
          · exact sitemapLocsFiltered_ne _ x hmem
        split
        next hit hfind =>
          intro u h
          cases h
          exact ⟨hf' _ (List.mem_of_find?_eq_some hfind),
                 List.mem_of_find?_eq_some hfind⟩
        next => exact ih _ _ hf'

theorem tryFallbackGo_ne (env : Env) (baseUrl : String) :
    ∀ (paths : List String) (u : String),
      tryFallbackGo env baseUrl paths = some u → u ≠ "" := by
  intro paths
  induction paths with
  | nil => intro u h; simp [tryFallbackGo] at h
  | cons p rest ih =>
    intro u h
    simp only [tryFallbackGo] at h
    split at h
    next => exact ih u h
    next testUrl hj =>
      split at h
      next => exact ih u h
      next status hh =>
        split at h
        · split at h
          · cases h
            exact jsUrl_ne_empty hj
          · exact ih u h
        · exact ih u h

theorem crawlTerminal_spec {foundUrls : List String} {crawledPages : Nat}
    (hf : ∀ x ∈ foundUrls, x ≠ "") :
    urlInFound (crawlTerminal foundUrls crawledPages) := by
  intro u h
  simp only [crawlTerminal] at h
  rcases foundUrls with - | ⟨u', rest⟩
  · simp [firstFoundOrNull] at h
  · simp only [firstFoundOrNull] at h
    by_cases hu : u' = ""
    · rw [if_pos hu] at h
      simp at h
    · rw [if_neg hu] at h
      cases h
      exact ⟨hu, List.mem_cons_self _ _⟩

theorem crawlLoopF_spec (env : Env) (baseUrl : String) (maxPages maxDepth : Nat) :
    ∀ (fuel : Nat) (queue : List (String × Nat)) (visited foundUrls : List String)
      (crawledPages : Nat), (∀ x ∈ foundUrls, x ≠ "") →
      urlInFound (crawlLoopF env baseUrl maxPages maxDepth fuel queue visited
        foundUrls crawledPages) := by
  intro fuel
  induction fuel with
  | zero =>
    intro q v f c hf
    simp only [crawlLoopF]
    exact crawlTerminal_spec hf
  | succ n ih =>
    intro q v f c hf
    match q with
    | [] =>
      simp only [crawlLoopF]
      exact crawlTerminal_spec hf
    | (currentUrl, depth) :: rest =>
      simp only [crawlLoopF]
      split
      next =>
        split
        next => exact ih rest v f c hf
        next =>
          split
          next => exact ih rest _ f _ hf
          next doc hdoc =>
            have hf' : ∀ x ∈ f ++ extractPrivacyLinks env doc currentUrl, x ≠ "" := by
              intro x hx
              rcases List.mem_append.mp hx with hmem | hmem
              · exact hf x hmem
              · exact extractPrivacyLinks_ne env doc currentUrl x hmem
            split
            next hit hfind =>
              intro u h
              cases h
              exact ⟨extractPrivacyLinks_ne env doc currentUrl _
                      (List.mem_of_find?_eq_some hfind),
                     List.mem_append_right _ (List.mem_of_find?_eq_some hfind)⟩
            next => exact ih _ _ _ _ hf'
      next => exact crawlTerminal_spec hf

theorem crawlLoopF_pages_le (env : Env) (baseUrl : String) (maxPages maxDepth : Nat) :
    ∀ (fuel : Nat) (queue : List (String × Nat)) (visited foundUrls : List String)
      (crawledPages : Nat), crawledPages ≤ maxPages →
      (crawlLoopF env baseUrl maxPages maxDepth fuel queue visited foundUrls
        crawledPages).crawledPages ≤ maxPages := by
  intro fuel
  induction fuel with
  | zero =>
    intro q v f c hc
    simpa [crawlLoopF, crawlTerminal] using hc
  | succ n ih =>
    intro q v f c hc
    match q with
    | [] => simpa [crawlLoopF, crawlTerminal] using hc
    | (currentUrl, depth) :: rest =>
      simp only [crawlLoopF]
      split
      next hlt =>
        split
        next => exact ih rest v f c hc
        next =>
          split
          next => exact ih rest _ f _ hlt
          next doc hdoc =>
            split
            next => simpa using hlt
            next => exact ih _ _ _ _ hlt
      next => simpa [crawlTerminal] using hc

theorem enqueue_length_le (links : List String) (visited' : List String)
    (depth : Nat) :
    (((links.take 10).filter (fun nextUrl => !(visited'.contains nextUrl))).map
      (fun nextUrl => (nextUrl, depth + 1))).length ≤ 10 := by
  rw [List.length_map]
  calc ((links.take 10).filter _).length ≤ (links.take 10).length :=
        List.length_filter_le _ _
    _ ≤ 10 := by rw [List.length_take]; omega

/-- Fuel adequacy: the fuelled loop's value does not depend on the fuel
once it exceeds `queue.length + 10 * (maxPages - crawledPages)`.  Every
iteration consumes a queue entry and each fetch (at most
`maxPages - crawledPages` of them) enqueues at most 10 entries, so this
quantity bounds the iterations left — exactly the termination argument of
the JS `while` loop. -/
theorem crawlLoopF_congr (env : Env) (baseUrl : String) (maxPages maxDepth : Nat) :
    ∀ (fuel₁ fuel₂ : Nat) (queue : List (String × Nat))
      (visited foundUrls : List String) (crawledPages : Nat),
      queue.length + 10 * (maxPages - crawledPages) < fuel₁ →
      queue.length + 10 * (maxPages - crawledPages) < fuel₂ →
      crawlLoopF env baseUrl maxPages maxDepth fuel₁ queue visited foundUrls
        crawledPages =
      crawlLoopF env baseUrl maxPages maxDepth fuel₂ queue visited foundUrls
        crawledPages := by
  intro fuel₁
  induction fuel₁ with
  | zero =>
    intro fuel₂ q v f c h1 h2
    omega
  | succ n ih =>
    intro fuel₂ q v f c h1 h2
    match fuel₂, h2 with
    | m + 1, h2 =>
      match q, h1, h2 with
      | [], h1, h2 => rfl
      | (currentUrl, depth) :: rest, h1, h2 =>
        simp only [crawlLoopF]
        by_cases hc : c < maxPages
        · rw [if_pos hc, if_pos hc]
          by_cases hskip : (v.contains currentUrl || decide (maxDepth < depth)) = true
          · rw [if_pos hskip, if_pos hskip]
            apply ih
            · simp at h1 ⊢
              omega
            · simp at h2 ⊢
              omega
          · rw [if_neg hskip, if_neg hskip]
            cases hget : env.get currentUrl with
            | none =>
              apply ih
              · simp at h1 ⊢
                omega
              · simp at h2 ⊢
                omega
            | some doc =>
              dsimp only
              cases hfind : (extractPrivacyLinks env doc currentUrl).find?
                  (fun u => validatePrivacyContent env u) with
              | some hit => rfl
              | none =>
                dsimp only
                by_cases hdep : (decide (depth < maxDepth)) = true
                · simp only [hdep, if_true]
                  apply ih
                  · have := enqueue_length_le
                      (extractCrawlableLinks env doc baseUrl currentUrl)
                      (currentUrl :: v) depth
                    simp only [List.length_append, List.length_cons] at h1 ⊢
                    omega
                  · have := enqueue_length_le
                      (extractCrawlableLinks env doc baseUrl currentUrl)
                      (currentUrl :: v) depth
                    simp only [List.length_append, List.length_cons] at h2 ⊢
                    omega
                · simp only [hdep, if_false]
                  apply ih
                  · simp at h1 ⊢
                    omega
                  · simp at h2 ⊢
                    omega
        · rw [if_neg hc, if_neg hc]

/-- The fuelled transcription satisfies the JS loop's own defining
equation, so the fuel is an artifact of totality, not of behaviour. -/
theorem crawlLoop_unfold (env : Env) (baseUrl : String) (maxPages maxDepth : Nat)
    (queue : List (String × Nat)) (visited foundUrls : List String)
    (crawledPages : Nat) :
    crawlLoop env baseUrl maxPages maxDepth queue visited foundUrls crawledPages =
      match queue with
      | [] => crawlTerminal foundUrls crawledPages
      | (currentUrl, depth) :: rest =>
        if crawledPages < maxPages then
          if visited.contains currentUrl || decide (maxDepth < depth) then
            crawlLoop env baseUrl maxPages maxDepth rest visited foundUrls
              crawledPages
          else
            match env.get currentUrl with
            | none =>
              crawlLoop env baseUrl maxPages maxDepth rest
                (currentUrl :: visited) foundUrls (crawledPages + 1)
            | some doc =>
              let pagePrivacyUrls := extractPrivacyLinks env doc currentUrl
              let foundUrls' := foundUrls ++ pagePrivacyUrls
              match pagePrivacyUrls.find? (fun u => validatePrivacyContent env u) with
              | some hit =>
                { privacyPolicyUrl := some hit, foundUrls := foundUrls',
                  crawledPages := crawledPages + 1, method := .crawl }
              | none =>
                let rest' :=
                  if decide (depth < maxDepth) then
                    rest ++ ((((extractCrawlableLinks env doc baseUrl
                      currentUrl).take 10).filter
                        (fun nextUrl => !((currentUrl :: visited).contains nextUrl))).map
                          (fun nextUrl => (nextUrl, depth + 1)))
                  else rest
                crawlLoop env baseUrl maxPages maxDepth rest'
                  (currentUrl :: visited) foundUrls' (crawledPages + 1)
        else crawlTerminal foundUrls crawledPages := by
  unfold crawlLoop
  have hfuel : ∀ (q : List (String × Nat)) (c : Nat),
      q.length + 10 * (maxPages - c) < crawlFuel maxPages c q := by
    intro q c
    simp [crawlFuel]
  match queue with
  | [] => simp [crawlFuel, crawlLoopF]
  | (currentUrl, depth) :: rest =>
    rw [show crawlFuel maxPages crawledPages ((currentUrl, depth) :: rest) =
      (rest.length + 10 * (maxPages - crawledPages) + 1) + 1 by
        simp only [crawlFuel, List.length_cons]
        omega]
    simp only [crawlLoopF]
    by_cases hc : crawledPages < maxPages
    · rw [if_pos hc, if_pos hc]
      by_cases hskip : (visited.contains currentUrl || decide (maxDepth < depth)) = true
      · rw [if_pos hskip, if_pos hskip]
        apply crawlLoopF_congr
        · omega
        · exact hfuel rest crawledPages
      · rw [if_neg hskip, if_neg hskip]
        cases hget : env.get currentUrl with
        | none =>
          apply crawlLoopF_congr
          · omega
          · exact hfuel rest (crawledPages + 1)
        | some doc =>
          dsimp only
          cases hfind : (extractPrivacyLinks env doc currentUrl).find?
              (fun u => validatePrivacyContent env u) with
          | some hit => rfl
          | none =>
            dsimp only
            by_cases hdep : (decide (depth < maxDepth)) = true
            · simp only [hdep, if_true]
              apply crawlLoopF_congr
              · have := enqueue_length_le
                  (extractCrawlableLinks env doc baseUrl currentUrl)
                  (currentUrl :: visited) depth
                simp only [List.length_append]
                omega
              · exact hfuel _ (crawledPages + 1)
            · simp only [hdep, Bool.false_eq_true, if_false]
              apply crawlLoopF_congr
              · omega
              · exact hfuel rest (crawledPages + 1)
    · rw [if_neg hc, if_neg hc]

theorem testDirectRoutes_spec (env : Env) (baseUrl : String) :
    urlInFound (testDirectRoutes env baseUrl) :=
  testDirectRoutesGo_spec env baseUrl CRAWL_ROUTES [] 0

theorem parseSitemap_spec (env : Env) (baseUrl : String) :
    urlInFound (parseSitemap env baseUrl) :=
  parseSitemapGo_spec env baseUrl sitemapPaths [] 0 (by simp)

theorem comprehensiveCrawl_spec (env : Env) (baseUrl : String) :
    urlInFound (comprehensiveCrawl env baseUrl) :=
  crawlLoopF_spec env baseUrl MAX_PAGES_TO_CRAWL MAX_CRAWL_DEPTH _ _ _ _ _
    (by simp)

theorem tryFallbackPolicyDiscovery_ne (env : Env) (baseUrl : String)
    {u : String} (h : tryFallbackPolicyDiscovery env baseUrl = some u) :
    u ≠ "" :=
  tryFallbackGo_ne env baseUrl _ u h

/-- The full pipeline inherits the hit-in-foundUrls property from its
strategies; only the content-validation half of the spec's invariant
fails (see the claim C1 theorems). -/
theorem findPrivacyPolicyUrl_urlInFound (env : Env) (baseUrl : String) :
    urlInFound (findPrivacyPolicyUrl env baseUrl) := by
  simp only [findPrivacyPolicyUrl]
  split
  · exact testDirectRoutes_spec env baseUrl
  · split
    · exact parseRobotsTxt_spec env baseUrl
    · split
      · exact parseSitemap_spec env baseUrl
      · split
        · exact comprehensiveCrawl_spec env baseUrl
        · split
          next v hv =>
            intro u h
            cases h
            have hne := tryFallbackPolicyDiscovery_ne env baseUrl hv
            refine ⟨hne, ?_⟩
            simp [if_neg hne]
          next =>
            intro u h
            simp at h

/-! ## Batch map lemmas -/

theorem mapGet_mapSet_self (m : List (String × CrawlResult)) (k : String)
    (v : CrawlResult) : mapGet (mapSet m k v) k = some v := by
  induction m with
  | nil => simp [mapSet, mapGet]
  | cons p rest ih =>
    obtain ⟨k', v'⟩ := p
    by_cases h : k' = k
    · simp [mapSet, mapGet, h]
    · simp [mapSet, mapGet, h, ih]

theorem mapGet_mapSet_ne (m : List (String × CrawlResult)) (k : String)
    (v : CrawlResult) (k₀ : String) (h : k₀ ≠ k) :
    mapGet (mapSet m k v) k₀ = mapGet m k₀ := by
  induction m with
  | nil =>
    have hne : ¬(k = k₀) := fun hh => h hh.symm
    simp [mapSet, mapGet, hne]
  | cons p rest ih =>
    obtain ⟨k', v'⟩ := p
    by_cases hk : k' = k
    · subst hk
      have hne : ¬(k' = k₀) := fun hh => h hh.symm
      simp [mapSet, mapGet, hne]
    · simp only [mapSet, if_neg hk, mapGet, ih]

theorem batchProcessOne_get (pipeline : String → Except Unit CrawlResult)
    (m : List (String × CrawlResult)) (b b₀ : String) :
    mapGet (batchProcessOne pipeline m b) b₀ =
      if b₀ = b then some (batchExpected pipeline b) else mapGet m b₀ := by
  by_cases h : b₀ = b
  · subst h
    unfold batchProcessOne batchExpected
    cases pipeline b₀ <;> simp [mapGet_mapSet_self]
  · unfold batchProcessOne
    cases pipeline b <;> simp [mapGet_mapSet_ne _ _ _ _ h, h]

theorem batchFoldl_get (pipeline : String → Except Unit CrawlResult) :
    ∀ (group : List String) (m : List (String × CrawlResult)) (b₀ : String),
      mapGet (group.foldl (batchProcessOne pipeline) m) b₀ =
        if b₀ ∈ group then some (batchExpected pipeline b₀) else mapGet m b₀ := by
  intro group
  induction group with
  | nil => simp
  | cons g rest ih =>
    intro m b₀
    simp only [List.foldl_cons, ih, batchProcessOne_get]
    by_cases h1 : b₀ ∈ rest
    · simp [h1]
    · by_cases h2 : b₀ = g <;> simp [h1, h2]

theorem batchGo_get (pipeline : String → Except Unit CrawlResult) :
    ∀ (baseUrls : List String) (m : List (String × CrawlResult)) (b₀ : String),
      mapGet (batchGo pipeline baseUrls m) b₀ =
        if b₀ ∈ baseUrls then some (batchExpected pipeline b₀) else mapGet m b₀ := by
  suffices H : ∀ (n : Nat) (l : List String), l.length ≤ n →
      ∀ (m : List (String × CrawlResult)) (b₀ : String),
        mapGet (batchGo pipeline l m) b₀ =
          if b₀ ∈ l then some (batchExpected pipeline b₀) else mapGet m b₀ by
    intro l
    exact H l.length l le_rfl
  intro n
  induction n with
  | zero =>
    intro l hl m b₀
    match l, hl with
    | [], _ => simp [batchGo]
  | succ n ih =>
    intro l hl m b₀
    match l with
    | [] => simp [batchGo]
    | [a] =>
      simp only [batchGo, batchFoldl_get]
    | [a, b] =>
      simp only [batchGo, batchFoldl_get]
    | a :: b :: c :: rest =>
      simp only [batchGo]
      rw [ih rest (by simp at hl; omega), batchFoldl_get]
      have hsplit : (b₀ ∈ a :: b :: c :: rest) ↔
          (b₀ ∈ ([a, b, c] : List String) ∨ b₀ ∈ rest) := by
        simp [List.mem_cons, or_assoc]
      simp only [hsplit]
      by_cases h1 : b₀ ∈ rest <;> by_cases h2 : b₀ ∈ ([a, b, c] : List String) <;>
        simp [h1, h2]

/-! ## Claim theorems -/

set_option maxRecDepth 40000
set_option maxHeartbeats 1000000

/-- Claim C1 (amended): for every discovery result of
`findPrivacyPolicyUrl`, if `privacyPolicyUrl` is non-null then that URL is
an element of `foundUrls`.  The claim's further guarantee — that the URL's
fetched content passed Content Validation — does not hold on the code (see
the counterexample): the fallback probe returns URLs after a HEAD-only
check, and the crawl's terminal return picks `foundUrls[0]` unvalidated. -/
theorem claim_C1 : ∀ (env : Env) (baseUrl u : String),
    (findPrivacyPolicyUrl env baseUrl).privacyPolicyUrl = some u →
    u ∈ (findPrivacyPolicyUrl env baseUrl).foundUrls :=
  fun env baseUrl u h => (findPrivacyPolicyUrl_urlInFound env baseUrl u h).2

/-- Claim C1 is refuted as stated: on `envC1` the pipeline returns the
fallback URL `http://s/privacy-policy` as its hit, yet no content was ever
fetched for it (every GET fails) and the discovery content validator
rejects it, so the hit did not pass Content Validation. -/
theorem claim_C1_counterexample :
    findPrivacyPolicyUrl envC1 "http://s" =
      { privacyPolicyUrl := some "http://s/privacy-policy",
        foundUrls := ["http://s/privacy-policy"], crawledPages := 0,
        method := .fallback } ∧
    envC1.get "http://s/privacy-policy" = none ∧
    validatePrivacyContent envC1 "http://s/privacy-policy" = false := by
  decide

/-- Claim C1 witness: the membership half holds at the concrete run. -/
theorem claim_C1_witness :
    (findPrivacyPolicyUrl envC1 "http://s").privacyPolicyUrl =
      some "http://s/privacy-policy" ∧
    "http://s/privacy-policy" ∈ (findPrivacyPolicyUrl envC1 "http://s").foundUrls :=
  ⟨by decide, claim_C1 envC1 "http://s" "http://s/privacy-policy" (by decide)⟩

/-- Claim C2 (amended): when the Crawl Orchestrator's loop terminates
because the frontier is empty or the page budget is reached, it returns
the accumulated `foundUrls` and `crawledPages`, but `privacyPolicyUrl` is
`foundUrls[0] || null` — the first accumulated candidate (null only when
none was accumulated, or the head is the empty string) — not always null
as the claim states. -/
theorem claim_C2 : ∀ (env : Env) (baseUrl : String) (maxPages maxDepth : Nat)
    (queue : List (String × Nat)) (visited foundUrls : List String)
    (crawledPages : Nat), queue = [] ∨ maxPages ≤ crawledPages →
    crawlLoop env baseUrl maxPages maxDepth queue visited foundUrls crawledPages =
      { privacyPolicyUrl := firstFoundOrNull foundUrls, foundUrls := foundUrls,
        crawledPages := crawledPages, method := .crawl } := by
  intro env baseUrl maxPages maxDepth queue visited foundUrls crawledPages h
  rcases h with h | h
  · subst h
    rw [crawlLoop_unfold]
    rfl
  · rcases queue with - | ⟨⟨currentUrl, depth⟩, rest⟩
    · rw [crawlLoop_unfold]
      rfl
    · rw [crawlLoop_unfold]
      dsimp only
      rw [if_neg (show ¬(crawledPages < maxPages) by omega)]
      rfl

/-- Claim C2 is refuted as stated: on `envC2` the crawl exhausts its
frontier after one page without any validated hit (the single candidate
fails validation and the budget of 50 is far from reached), yet the
returned `privacyPolicyUrl` is that unvalidated candidate, not null. -/
theorem claim_C2_counterexample :
    comprehensiveCrawl envC2 "http://s" =
      { privacyPolicyUrl := some "http://s/privacy",
        foundUrls := ["http://s/privacy"], crawledPages := 1,
        method := .crawl } ∧
    validatePrivacyContent envC2 "http://s/privacy" = false ∧
    1 < MAX_PAGES_TO_CRAWL := by
  decide

/-- Claim C2 witness: the amended terminal form at a concrete state. -/
theorem claim_C2_witness :
    crawlLoop envC2 "http://s" 50 3 [] [] ["http://s/privacy"] 1 =
      { privacyPolicyUrl := some "http://s/privacy",
        foundUrls := ["http://s/privacy"], crawledPages := 1,
        method := .crawl } := by
  rw [claim_C2 envC2 "http://s" 50 3 [] [] ["http://s/privacy"] 1 (Or.inl rfl)]
  decide

/-- Claim C3 (amended): when every strategy misses (all four strategy
results have a falsy `privacyPolicyUrl`), `findPrivacyPolicyUrl` returns
method `fallback` with `privacyPolicyUrl` the fallback probe's result —
but `foundUrls` is only the fallback URL (or empty) and `crawledPages` is
0: the candidates and page counts accumulated by the earlier strategies
are discarded, not returned as the claim states. -/
theorem claim_C3 : ∀ (env : Env) (baseUrl : String),
    isTruthyStr (testDirectRoutes env baseUrl).privacyPolicyUrl = false →
    isTruthyStr (parseRobotsTxt env baseUrl).privacyPolicyUrl = false →
    isTruthyStr (parseSitemap env baseUrl).privacyPolicyUrl = false →
    isTruthyStr (comprehensiveCrawl env baseUrl).privacyPolicyUrl = false →
    findPrivacyPolicyUrl env baseUrl =
      match tryFallbackPolicyDiscovery env baseUrl with
      | some fallbackResult =>
        { privacyPolicyUrl := some fallbackResult,
          foundUrls := if fallbackResult = "" then [] else [fallbackResult],
          crawledPages := 0, method := .fallback }
      | none =>
        { privacyPolicyUrl := none, foundUrls := [], crawledPages := 0,
          method := .fallback } := by
  intro env baseUrl h1 h2 h3 h4
  simp only [findPrivacyPolicyUrl, h1, h2, h3, h4, Bool.false_eq_true, if_false]

/-- Claim C3 is refuted as stated: on `envC3` the direct strategy
accumulated the candidate `http://s/help` and two pages were fetched
across strategies, yet the exhausted pipeline returns empty `foundUrls`
and `crawledPages = 0`. -/
theorem claim_C3_counterexample :
    findPrivacyPolicyUrl envC3 "http://s" =
      { privacyPolicyUrl := none, foundUrls := [], crawledPages := 0,
        method := .fallback } ∧
    (testDirectRoutes envC3 "http://s").foundUrls = ["http://s/help"] ∧
    (testDirectRoutes envC3 "http://s").crawledPages = 1 ∧
    (comprehensiveCrawl envC3 "http://s").crawledPages = 1 := by
  decide

/-- Claim C3 witness: the amended exhausted-pipeline form on `envC3`. -/
theorem claim_C3_witness :
    findPrivacyPolicyUrl envC3 "http://s" =
      { privacyPolicyUrl := none, foundUrls := [], crawledPages := 0,
        method := .fallback } := by
  rw [claim_C3 envC3 "http://s" (by decide) (by decide) (by decide) (by decide)]
  decide

/-- Claim C4 (amended): a permanent failure does not let the remaining
request profiles run — the opposite of the claim: whenever the first
profile's attempt raises an error whose message mentions 404 or 403,
`scrapePrivacyPolicy` rethrows it at once (wrapped by the outer handler),
regardless of what the other three profiles would have returned. -/
theorem claim_C4 : ∀ (env : Env) (url e : String),
    attemptScrape env url 1 = .error e →
    (strContains e "404" || strContains e "403") = true →
    scrapePrivacyPolicy env url =
      .error ("Failed to scrape privacy policy from " ++ url ++ ": " ++ e) := by
  intro env url e h1 h2
  unfold scrapePrivacyPolicy
  have hgo : scrapeGo env url 1 4 = .error e := by
    simp [scrapeGo, h1, h2]
  rw [hgo]

/-- Claim C4 is refuted as stated: on `envC4` the first profile receives
HTTP 404 and the scrape throws immediately, even though continuing with
the second profile (`scrapeGo` from attempt 2) would have produced a valid
privacy policy — so not every profile is attempted before giving up. -/
theorem claim_C4_counterexample :
    scrapePrivacyPolicy envC4 "http://s/p" =
      .error "Failed to scrape privacy policy from http://s/p: HTTP 404: Not Found" ∧
    scrapeGo envC4 "http://s/p" 2 3 =
      .ok { text := goodPolicyText, url := "http://s/p", title := "T",
            lastModified := none } := by
  decide

/-- Claim C4 witness: the amended short-circuit at the concrete run. -/
theorem claim_C4_witness :
    scrapePrivacyPolicy envC4 "http://s/p" =
      .error ("Failed to scrape privacy policy from " ++ "http://s/p" ++ ": " ++
        "HTTP 404: Not Found") :=
  claim_C4 envC4 "http://s/p" "HTTP 404: Not Found" (by decide) (by decide)

/-- Claim C5 (amended): `normalizeUrl` never throws, but it does not
return null on malformed string input: for every string href it returns a
string (the resolution, or the href itself when resolution fails or the
href starts with "http"); only the `null` href yields null, via the
`catch` returning the href unchanged. -/
theorem claim_C5 : ∀ (href baseUrl : String),
    (normalizeUrl (some href) baseUrl).isSome = true ∧
    normalizeUrl none baseUrl = none := by
  intro href baseUrl
  refine ⟨?_, rfl⟩
  simp only [normalizeUrl]
  split
  · rfl
  · split <;> rfl

/-- Claim C5 is refuted as stated: the malformed hrefs `""` and
`"not a url"` do not map to null — both produce a string result. -/
theorem claim_C5_counterexample :
    (normalizeUrl (some "") "http://s").isSome = true ∧
    (normalizeUrl (some "not a url") "http://s").isSome = true := by
  decide

/-- Claim C6: the documented Content Validator accepts exactly the texts
longer than 500 characters that contain at least one required indicator
and at least two optional indicators as case-insensitive substrings; in
particular every text of at most 500 characters is rejected regardless of
keywords. -/
theorem claim_C6 : ∀ text : String,
    (validatePrivacyPolicyContent text = true ↔
      (500 < text.length ∧
       (∃ ind ∈ (["personal information", "data collection", "privacy"] :
           List String), strContains (toLowerJs text) ind = true) ∧
       2 ≤ ((["cookie", "third party", "data sharing", "we collect",
              "your information", "data processing", "personal data",
              "information we collect", "how we use", "data protection",
              "privacy policy", "gdpr", "ccpa", "consent"] : List String).filter
              (fun ind => strContains (toLowerJs text) ind)).length)) ∧
    (text.length ≤ 500 → validatePrivacyPolicyContent text = false) := by
  intro text
  constructor
  · constructor
    · intro hv
      simp only [validatePrivacyPolicyContent, Bool.and_eq_true,
        decide_eq_true_eq, List.any_eq_true] at hv
      tauto
    · intro hs
      simp only [validatePrivacyPolicyContent, Bool.and_eq_true,
        decide_eq_true_eq, List.any_eq_true]
      tauto
  · intro hlen
    by_contra hv
    rw [Bool.not_eq_false] at hv
    simp only [validatePrivacyPolicyContent, Bool.and_eq_true,
      decide_eq_true_eq] at hv
    omega

/-- Claim C6 witness: a short keyword-rich text is rejected. -/
theorem claim_C6_witness :
    validatePrivacyPolicyContent
      "personal information data collection privacy cookie we collect gdpr" =
      false :=
  (claim_C6 _).2 (by decide)

/-- Claim C7: the Discovery Pipeline equals the spec's description — the
five strategies run in the order direct, robots, sitemap, crawl, fallback,
the first result with a non-null `privacyPolicyUrl` is returned with its
strategy's method tag, and the fallback record closes the chain. -/
theorem claim_C7 : ∀ (env : Env) (baseUrl : String),
    findPrivacyPolicyUrl env baseUrl = specPipeline env baseUrl := by
  intro env baseUrl
  simp only [findPrivacyPolicyUrl, specPipeline, firstHit, specFallbackResult]
  cases hd : (testDirectRoutes env baseUrl).privacyPolicyUrl with
  | some u =>
    have hne := ((testDirectRoutes_spec env baseUrl) u hd).1
    simp [isTruthyStr, hd, hne]
  | none =>
    simp only [isTruthyStr, hd, Option.isSome_none, Bool.false_eq_true, if_false]
    cases hr : (parseRobotsTxt env baseUrl).privacyPolicyUrl with
    | some u =>
      have hne := ((parseRobotsTxt_spec env baseUrl) u hr).1
      simp [isTruthyStr, hr, hne]
    | none =>
      simp only [isTruthyStr, hr, Option.isSome_none, Bool.false_eq_true, if_false]
      cases hs : (parseSitemap env baseUrl).privacyPolicyUrl with
      | some u =>
        have hne := ((parseSitemap_spec env baseUrl) u hs).1
        simp [isTruthyStr, hs, hne]
      | none =>
        simp only [isTruthyStr, hs, Option.isSome_none, Bool.false_eq_true,
          if_false]
        cases hc : (comprehensiveCrawl env baseUrl).privacyPolicyUrl with
        | some u =>
          have hne := ((comprehensiveCrawl_spec env baseUrl) u hc).1
          simp [isTruthyStr, hc, hne]
        | none =>
          simp only [isTruthyStr, hc, Option.isSome_none, Bool.false_eq_true,
            if_false]
          cases hf : tryFallbackPolicyDiscovery env baseUrl with
          | some v =>
            have hne := tryFallbackPolicyDiscovery_ne env baseUrl hf
            simp [hf, hne]
          | none => simp [hf]

/-- Claim C8: the batch returns an entry for every input domain; a domain
whose pipeline invocation throws is mapped to the fallback record
(`privacyPolicyUrl: null`, empty `foundUrls`, 0 pages, method `fallback`),
every other domain is mapped to its own pipeline result, and the batch is
a total function — no exception propagates. -/
theorem claim_C8 : ∀ (pipeline : String → Except Unit CrawlResult)
    (baseUrls : List String) (b : String), b ∈ baseUrls →
    mapGet (batchFindPrivacyPolicies pipeline baseUrls) b =
      some (batchExpected pipeline b) := by
  intro pipeline baseUrls b hb
  unfold batchFindPrivacyPolicies
  rw [batchGo_get, if_pos hb]

/-- Claim C8 witness: three domains, the middle one throwing, give a full
three-entry map with the failing domain on the fallback record. -/
theorem claim_C8_witness :
    mapGet (batchFindPrivacyPolicies batchDemoPipeline
        ["http://a", "http://b", "http://c"]) "http://a" =
      some { privacyPolicyUrl := some "http://a/privacy",
             foundUrls := ["http://a/privacy"], crawledPages := 1,
             method := .direct } ∧
    mapGet (batchFindPrivacyPolicies batchDemoPipeline
        ["http://a", "http://b", "http://c"]) "http://b" =
      some failedDomainRecord ∧
    mapGet (batchFindPrivacyPolicies batchDemoPipeline
        ["http://a", "http://b", "http://c"]) "http://c" =
      some { privacyPolicyUrl := some "http://c/privacy",
             foundUrls := ["http://c/privacy"], crawledPages := 1,
             method := .direct } := by
  refine ⟨?_, ?_, ?_⟩
  · rw [claim_C8 batchDemoPipeline ["http://a", "http://b", "http://c"]
      "http://a" (by decide)]
    decide
  · rw [claim_C8 batchDemoPipeline ["http://a", "http://b", "http://c"]
      "http://b" (by decide)]
    decide
  · rw [claim_C8 batchDemoPipeline ["http://a", "http://b", "http://c"]
      "http://c" (by decide)]
    decide

/-- Claim C9: the crawl loop performs at most `maxPages` fetches in total
(each dequeue-and-fetch iteration increments `crawledPages`, which never
exceeds the budget), and on a synthetic site with an unbounded supply of
crawlable links and a budget of 5 it terminates after exactly 5 fetches
with a budget-failure result. -/
theorem claim_C9 :
    (∀ (env : Env) (baseUrl : String) (maxPages maxDepth : Nat)
      (queue : List (String × Nat)) (visited foundUrls : List String)
      (crawledPages : Nat), crawledPages ≤ maxPages →
      (crawlLoop env baseUrl maxPages maxDepth queue visited foundUrls
        crawledPages).crawledPages ≤ maxPages) ∧
    crawlLoop envInf "http://s" 5 3 [("http://s", 0)] [] [] 0 =
      { privacyPolicyUrl := none, foundUrls := [], crawledPages := 5,
        method := .crawl } := by
  constructor
  · intro env baseUrl maxPages maxDepth queue visited foundUrls crawledPages hc
    unfold crawlLoop
    exact crawlLoopF_pages_le env baseUrl maxPages maxDepth _ queue visited
      foundUrls crawledPages hc
  · decide

/-- Claim C9 witness: the budget bound at the concrete budget-5 run. -/
theorem claim_C9_witness :
    (crawlLoop envInf "http://s" 5 3 [("http://s", 0)] [] [] 0).crawledPages ≤ 5 :=
  claim_C9.1 envInf "http://s" 5 3 [("http://s", 0)] [] [] 0 (by decide)

/-- Claim C10: the discovery-time validator `validatePrivacyContent`
accepts a fetched page exactly when its lowercased body text is longer
than 1000 characters and contains at least 3 of the 9 indicator phrases —
strictly stricter than the documented validator: `goodPolicyText`
(599 characters) passes `validatePrivacyPolicyContent` but a page serving
it is rejected during discovery. -/
theorem claim_C10 :
    (∀ (env : Env) (url body : String), env.get url = some body →
      (validatePrivacyContent env url = true ↔
        (3 ≤ ((["personal information", "data collection", "privacy policy",
                "we collect", "your information", "data processing",
                "cookies", "third parties", "data sharing"] : List String).filter
                (fun ind => strContains (toLowerJs (env.bodyText body)) ind)).length ∧
         1000 < (toLowerJs (env.bodyText body)).length))) ∧
    (500 < goodPolicyText.length ∧ goodPolicyText.length ≤ 1000 ∧
     validatePrivacyPolicyContent goodPolicyText = true ∧
     envSep.get "http://s/privacy" = some "B" ∧
     envSep.bodyText "B" = goodPolicyText ∧
     validatePrivacyContent envSep "http://s/privacy" = false) := by
  constructor
  · intro env url body hget
    simp only [validatePrivacyContent, hget, Bool.and_eq_true, decide_eq_true_eq]
  · decide

/-- Claim C10 witness: the characterisation instantiated at `envSep`. -/
theorem claim_C10_witness :
    validatePrivacyContent envSep "http://s/privacy" = true ↔
      (3 ≤ ((["personal information", "data collection", "privacy policy",
              "we collect", "your information", "data processing",
              "cookies", "third parties", "data sharing"] : List String).filter
              (fun ind => strContains (toLowerJs (envSep.bodyText "B")) ind)).length ∧
       1000 < (toLowerJs (envSep.bodyText "B")).length) :=
  claim_C10.1 envSep "http://s/privacy" "B" (by decide)

end KavachPolicyScraper
